import Mathlib

/-!
Verification of the frame-annotation loop and main loop of
`src/vision/pose-detection.py`.

The per-frame drawing loop (lines 55-113 of the source) is embedded as a
pure function from model results to a list of OpenCV drawing commands:
each `cv2.rectangle` / `cv2.putText` / `cv2.circle` / `cv2.line` call the
loop performs is one emitted `Cmd`, in execution order.  A Python float
is an exact rational number; it is modelled by an explicit
numerator/denominator pair (`FloatVal`), on which Python `int()`
truncation and CPython's `.2f` formatting (decimal rounding half-to-even
of the exact value) are defined with integer arithmetic.  The main
capture loop (lines 44-124) is embedded separately as an event-trace
function over a finite script of iteration outcomes.
-/

/-- The exact rational value of a Python float, as an unreduced
numerator/denominator pair with `den` positive.  Every float value the
annotator consumes (coordinates, confidences, font scales) is one of
these. -/
structure FloatVal where
  num : Int
  den : Nat := 1
  deriving DecidableEq

/-- The float holding an integer value. -/
def FloatVal.ofInt (n : Int) : FloatVal := { num := n }

/-- Python `int()` on a float: truncation toward zero (`Int.tdiv` is
T-division). -/
def FloatVal.trunc (s : FloatVal) : Int := Int.tdiv s.num s.den

/-- Rounding a float to the nearest integer, ties to even — how CPython
rounds the (exact) value of a float when formatting it.  `2 * (s.num -
f * s.den)` is the numerator over `s.den` of twice the fractional part. -/
def FloatVal.roundHalfEven (s : FloatVal) : Int :=
  let f := Int.fdiv s.num s.den
  let r2 : Int := 2 * (s.num - f * (s.den : Int))
  if r2 < (s.den : Int) then f
  else if (s.den : Int) < r2 then f + 1
  else if f % 2 = 0 then f else f + 1

/-- Rounding to the nearest integer, half away from zero: the ordinary
reading of "rounded integer pixel position". -/
def FloatVal.roundNearest (s : FloatVal) : Int :=
  if 0 ≤ s.num then Int.fdiv (2 * s.num + s.den) (2 * s.den)
  else -(Int.fdiv (-(2 * s.num) + s.den) (2 * s.den))

/-- The float of value `s` scaled by 100. -/
def FloatVal.scale100 (s : FloatVal) : FloatVal := { num := s.num * 100, den := s.den }

/-- Python `f"{conf:.2f}"` on a float: round the exact value to two
decimals, render with exactly two digits after the point. -/
def fmt2 (s : FloatVal) : String :=
  let n : Int := s.scale100.roundHalfEven
  let a : Nat := n.natAbs
  ((if n < 0 then "-" else "") ++ Nat.repr (a / 100)) ++
    ("." ++ String.mk [Nat.digitChar (a / 10 % 10), Nat.digitChar (a % 10)])

/-- One OpenCV drawing call performed on the frame.  Colors are BGR
triples; the only font used in the source (`FONT_HERSHEY_SIMPLEX`) is
left implicit.  `thickness` is an `Int` because `cv2.circle` is called
with thickness `-1` (filled). -/
inductive Cmd where
  | rectangle (p1 p2 : Int × Int) (color : Nat × Nat × Nat) (thickness : Int)
  | text (s : String) (org : Int × Int) (fontScale : FloatVal) (color : Nat × Nat × Nat) (thickness : Int)
  | circle (center : Int × Int) (radius : Nat) (color : Nat × Nat × Nat) (thickness : Int)
  | line (p1 p2 : Int × Int) (color : Nat × Nat × Nat) (thickness : Int)
  deriving DecidableEq

/-- One detection box of a model result: `int(box.cls[0])`,
`float(box.conf[0])` and the four `box.xyxy[0]` float coordinates. -/
structure Box where
  cls : Int
  conf : FloatVal
  xyxy : FloatVal × FloatVal × FloatVal × FloatVal
  deriving DecidableEq

/-- One model result object: `result.boxes` and
`getattr(result.keypoints, "xy", None)`, each possibly `None`; the
keypoints are a per-detection list of (x, y) float pairs. -/
structure PoseResult where
  boxes : Option (List Box)
  kps : Option (List (List (FloatVal × FloatVal)))
  deriving DecidableEq

/-- The 17 COCO keypoint names (source lines 5-10). -/
def KEYPOINT_NAMES : List String :=
  ["nose", "left_eye", "right_eye", "left_ear", "right_ear",
   "left_shoulder", "right_shoulder", "left_elbow", "right_elbow",
   "left_wrist", "right_wrist", "left_hip", "right_hip",
   "left_knee", "right_knee", "left_ankle", "right_ankle"]

/-- The 18 COCO skeleton connections (source lines 13-19). -/
def SKELETON : List (Nat × Nat) :=
  [(5, 6), (5, 7), (7, 9), (6, 8), (8, 10),
   (5, 11), (6, 12), (11, 12),
   (11, 13), (13, 15), (12, 14), (14, 16),
   (0, 1), (0, 2), (1, 3), (2, 4),
   (0, 5), (0, 6)]

/-- Scale 0.5 of the person label (source line 84). -/
def labelScale : FloatVal := { num := 1, den := 2 }

/-- Scale 0.4 of the keypoint name texts (source line 99). -/
def nameScale : FloatVal := { num := 2, den := 5 }

/-- Scale 1 of the people-count overlay (source line 112). -/
def overlayScale : FloatVal := { num := 1 }

/-- Bounding box and label of one person detection (source lines 79-85):
`cv2.rectangle` on the truncated corners, then `cv2.putText` of
`"Person "` plus the two-decimal confidence, 8 pixels above the top-left
corner. -/
def boxLabelCmds (b : Box) : List Cmd :=
  let x1 := b.xyxy.1.trunc
  let y1 := b.xyxy.2.1.trunc
  let x2 := b.xyxy.2.2.1.trunc
  let y2 := b.xyxy.2.2.2.trunc
  [Cmd.rectangle (x1, y1) (x2, y2) (0, 255, 0) 2,
   Cmd.text ("Person " ++ fmt2 b.conf) (x1, y1 - 8) labelScale (0, 255, 0) 2]

/-- One iteration of the keypoint loop (source lines 93-100), at loop
index `jp.1` with keypoint `jp.2`: a filled red circle of radius 4 at
the truncated position, then — when the index has a name — the yellow
name text at offset (+5, -5). -/
def kpEntry (jp : Nat × (FloatVal × FloatVal)) : List Cmd :=
  let x := jp.2.1.trunc
  let y := jp.2.2.trunc
  Cmd.circle (x, y) 4 (0, 0, 255) (-1) ::
    (match KEYPOINT_NAMES[jp.1]? with
     | some nm => [Cmd.text nm (x + 5, y - 5) nameScale (0, 255, 255) 1]
     | none => [])

/-- Keypoint markers and names of one detection: the keypoint loop
(`for j, (kx, ky) in enumerate(kps_xy)`) over all keypoints. -/
def kpCmds (k : List (FloatVal × FloatVal)) : List Cmd :=
  (k.enum.map kpEntry).flatten

/-- One iteration of the skeleton loop (source lines 103-107) for edge
`e`: a blue line of width 2 between the truncated endpoint positions
when both indices are in range, nothing otherwise. -/
def skelEntry (k : List (FloatVal × FloatVal)) (e : Nat × Nat) : Option Cmd :=
  match k[e.1]?, k[e.2]? with
  | some pa, some pb =>
      some (Cmd.line (pa.1.trunc, pa.2.trunc) (pb.1.trunc, pb.2.trunc) (255, 0, 0) 2)
  | _, _ => none

/-- Skeleton lines of one detection: the skeleton loop over all edges. -/
def skelCmds (k : List (FloatVal × FloatVal)) : List Cmd :=
  SKELETON.filterMap (skelEntry k)

/-- Drawing commands of the detection at index `i` (source lines 70-107):
nothing for a non-person class; otherwise box and label, then — only when
`i` is within the keypoint array — keypoints and skeleton. -/
def detCmds (ks : List (List (FloatVal × FloatVal))) (i : Nat) (b : Box) : List Cmd :=
  if b.cls ≠ 0 then []
  else
    boxLabelCmds b ++
      (match ks[i]? with
       | none => []
       | some k => kpCmds k ++ skelCmds k)

/-- Contribution of one box to `people_count` (source lines 73-76). -/
def detCount (b : Box) : Nat := if b.cls = 0 then 1 else 0

/-- The `for i, box in enumerate(boxes)` loop (source lines 69-107),
threading the accumulated commands and the people count. -/
def annotateBoxesAux (ks : List (List (FloatVal × FloatVal))) :
    Nat → List Cmd × Nat → List Box → List Cmd × Nat
  | _, acc, [] => acc
  | i, acc, b :: bs =>
      annotateBoxesAux ks (i + 1) (acc.1 ++ detCmds ks i b, acc.2 + detCount b) bs

/-- Commands and people count of one result's box loop. -/
def annotateBoxes (ks : List (List (FloatVal × FloatVal))) (bs : List Box) :
    List Cmd × Nat :=
  annotateBoxesAux ks 0 ([], 0) bs

/-- The people-count overlay (source lines 110-113). -/
def countOverlay (n : Nat) : Cmd :=
  Cmd.text ("People detected: " ++ toString n) (10, 30) overlayScale (0, 255, 0) 2

/-- Drawing commands of one model result (source lines 55-113): nothing
when boxes or keypoints are absent; otherwise the box loop's commands
followed by that result's people-count overlay. -/
def resultCmds (r : PoseResult) : List Cmd :=
  match r.boxes, r.kps with
  | some bs, some ks =>
      let p := annotateBoxes ks bs
      p.1 ++ [countOverlay p.2]
  | _, _ => []

/-- The people count a result's overlay displays (0 when nothing is
drawn for the result). -/
def resultCount (r : PoseResult) : Nat :=
  match r.boxes, r.kps with
  | some bs, some ks => (annotateBoxes ks bs).2
  | _, _ => 0

/-- All drawing commands of one frame: the per-result commands in result
order (`for result in results`, source line 55). -/
def annotate (rs : List PoseResult) : List Cmd :=
  (rs.map resultCmds).flatten

/-- The people counts the annotator produces, one per result. -/
def annotateCounts (rs : List PoseResult) : List Nat :=
  rs.map resultCount

/-- All boxes of a result list, in order, ignoring absent fields. -/
def flatBoxes (rs : List PoseResult) : List Box :=
  (rs.filterMap PoseResult.boxes).flatten

/-- Number of detections whose class identifies "person" across a whole
result list. -/
def totalPersons (rs : List PoseResult) : Nat :=
  (flatBoxes rs).countP fun b => b.cls == 0

/-- Applying a command list to a frame under any pixel-level rendering
of single commands. -/
def applyCmds {F : Type} (render : F → Cmd → F) (f : F) (cs : List Cmd) : F :=
  cs.foldl render f

/-- Recognizes keypoint marker circles among emitted commands. -/
def isCircleCmd : Cmd → Bool
  | .circle _ _ _ _ => true
  | _ => false

/-- Recognizes skeleton lines among emitted commands. -/
def isLineCmd : Cmd → Bool
  | .line _ _ _ _ => true
  | _ => false

/-- Recognizes bounding-box rectangles among emitted commands. -/
def isRectCmd : Cmd → Bool
  | .rectangle _ _ _ _ => true
  | _ => false

/-- Recognizes keypoint-name texts: the only texts drawn at font scale
0.4. -/
def isNameTextCmd : Cmd → Bool
  | .text _ _ fs _ _ => fs == nameScale
  | _ => false

/-- Recognizes person labels: the only texts drawn at font scale 0.5. -/
def isLabelTextCmd : Cmd → Bool
  | .text _ _ fs _ _ => fs == labelScale
  | _ => false

/-- A person detection (class 0) with confidence 0.9 and box corners
(0,0)-(1,1), used as a concrete input. -/
def personBox : Box :=
  { cls := 0, conf := { num := 9, den := 10 },
    xyxy := (FloatVal.ofInt 0, FloatVal.ofInt 0, FloatVal.ofInt 1, FloatVal.ofInt 1) }

/-- A result object holding exactly one person detection. -/
def onePersonResult : PoseResult :=
  { boxes := some [personBox], kps := some [[]] }

/-- A cat detection (COCO class 15), used as a concrete non-person
input. -/
def catBox : Box :=
  { cls := 15, conf := FloatVal.ofInt 1,
    xyxy := (FloatVal.ofInt 0, FloatVal.ofInt 0, FloatVal.ofInt 1, FloatVal.ofInt 1) }

/-- A concrete keypoint at float position (1.0, 2.0). -/
def kpA : FloatVal × FloatVal := (FloatVal.ofInt 1, FloatVal.ofInt 2)

/-- A concrete keypoint at float position (0.6, 0.6): its truncated
position (0, 0) and nearest-integer position (1, 1) differ. -/
def kpB : FloatVal × FloatVal := ({ num := 3, den := 5 }, { num := 3, den := 5 })

/-- A person detection with confidence 0.5 and box corners
(10,20)-(110,220), used as a concrete input for label formatting. -/
def halfConfBox : Box :=
  { cls := 0, conf := { num := 1, den := 2 },
    xyxy := (FloatVal.ofInt 10, FloatVal.ofInt 20, FloatVal.ofInt 110, FloatVal.ofInt 220) }

/-- Observable side effects of the main loop (source lines 44-124):
frame reads (with their success), inference calls, display calls, and
the two cleanup calls of the `finally` block. -/
inductive Ev where
  | read (ok : Bool)
  | infer
  | disp
  | release
  | destroyWin
  deriving DecidableEq

/-- Outcome of one loop iteration, scripted from outside: either
`cap.read()` fails, or a frame arrives and then inference either raises
an exception or completes, after which the quit key may or may not be
pressed. -/
inductive IterIn where
  | readFail
  | frame (raise : Bool) (quit : Bool)
  deriving DecidableEq

/-- Whether a script makes the `while True` loop terminate: a read
failure, an exception, or a quit key somewhere in it. -/
def terminates : List IterIn → Bool
  | [] => false
  | .readFail :: _ => true
  | .frame r q :: rest => r || q || terminates rest

/-- Events of the loop body (source lines 45-120) under a script: each
iteration reads; on read failure it breaks, otherwise it runs inference
(an exception there aborts the loop), displays, and breaks if quit was
pressed. -/
def loopEvs : List IterIn → List Ev
  | [] => []
  | .readFail :: _ => [.read false]
  | .frame r q :: rest =>
      .read true :: .infer ::
        (if r then [] else .disp :: (if q then [] else loopEvs rest))

/-- Events of the whole `try`/`finally` (source lines 44-124) after the
capture opened: the loop events, then — whenever the loop exits, by
break or by exception — the `finally` block releases the capture device
and destroys the windows. -/
def mainRun (s : List IterIn) : List Ev :=
  if terminates s then loopEvs s ++ [.release, .destroyWin] else loopEvs s

/-- Events of `main` (source lines 21-124): nothing observable happens
after the early return when the capture device cannot be opened. -/
def mainEvents (opened : Bool) (s : List IterIn) : List Ev :=
  if opened then mainRun s else []

/-- The events strictly after the first failed read. -/
def afterReadFail (evs : List Ev) : List Ev :=
  (evs.dropWhile fun e => e != Ev.read false).drop 1

/-- A concrete script: one successful iteration, then a read failure. -/
def sampleScript : List IterIn := [IterIn.frame false false, IterIn.readFail]

/-- Unfolding the box loop: starting at index `i` with accumulator
`(c, n)`, it appends the per-detection commands of the remaining boxes
(indexed from `i`) and adds the number of remaining person boxes. -/
theorem annotateBoxesAux_eq (ks : List (List (FloatVal × FloatVal))) (bs : List Box) :
    ∀ (i : Nat) (c : List Cmd) (n : Nat),
      annotateBoxesAux ks i (c, n) bs =
        (c ++ ((List.enumFrom i bs).map fun ib => detCmds ks ib.1 ib.2).flatten,
         n + bs.countP fun b => b.cls == 0) := by
  induction bs with
  | nil => intro i c n; simp [annotateBoxesAux]
  | cons b bs ih =>
      intro i c n
      rw [annotateBoxesAux, ih]
      refine Prod.ext ?_ ?_
      · simp [List.enumFrom_cons, List.append_assoc]
      · simp only [List.countP_cons, detCount, beq_iff_eq]
        by_cases hb : b.cls = 0
        · simp [hb]; omega
        · simp [hb]

/-- The commands of the box loop are the per-detection commands in input
order. -/
theorem annotateBoxes_fst (ks : List (List (FloatVal × FloatVal))) (bs : List Box) :
    (annotateBoxes ks bs).1 = ((bs.enum.map fun ib => detCmds ks ib.1 ib.2)).flatten := by
  rw [annotateBoxes, annotateBoxesAux_eq]
  simp [List.enum_eq_enumFrom]

/-- The count of the box loop is the number of person boxes. -/
theorem annotateBoxes_snd (ks : List (List (FloatVal × FloatVal))) (bs : List Box) :
    (annotateBoxes ks bs).2 = bs.countP fun b => b.cls == 0 := by
  rw [annotateBoxes, annotateBoxesAux_eq]
  simp

/-- Claim C1 (amended): for a model result whose boxes and keypoints are
present, the people count its overlay reports equals the number of that
result's detections whose class id is 0, whatever other classes are
present. -/
theorem people_count_per_result (bs : List Box) (ks : List (List (FloatVal × FloatVal))) :
    resultCount { boxes := some bs, kps := some ks } = bs.countP fun b => b.cls == 0 := by
  show (annotateBoxes ks bs).2 = _
  rw [annotateBoxes_snd]

/-- Claim C1, counterexample: two person detections grouped into two
result objects; 2 person detections are present, but each overlay drawn
reports a people count of 1 and no overlay reports 2 — the reported
count is not grouping-independent. -/
theorem people_count_grouping_cex :
    totalPersons [onePersonResult, onePersonResult] = 2 ∧
    annotateCounts [onePersonResult, onePersonResult] = [1, 1] ∧
    countOverlay 1 ∈ annotate [onePersonResult, onePersonResult] ∧
    countOverlay 2 ∉ annotate [onePersonResult, onePersonResult] := by decide

/-- Claim C2, counterexample: with detections absent (`boxes` is `None`),
the annotator draws nothing at all — in particular not the
"People detected: 0" overlay the claim requires. -/
theorem zero_overlay_absent_cex :
    annotate [{ boxes := none, kps := none }] ≠ [countOverlay 0] := by decide

/-- Claim C2 (amended): with an empty detection list the frame is
modified only by the "People detected: 0" overlay; with detections
absent (boxes or keypoints `None`), or no result objects at all, the
frame is returned with no drawing whatsoever. -/
theorem empty_or_absent_annotation (ks : List (List (FloatVal × FloatVal)))
    (r : PoseResult) (h : r.boxes = none ∨ r.kps = none) :
    annotate [{ boxes := some [], kps := some ks }] = [countOverlay 0] ∧
    annotate [r] = [] ∧
    annotate ([] : List PoseResult) = [] := by
  refine ⟨by simp [annotate, resultCmds, annotateBoxes, annotateBoxesAux], ?_, rfl⟩
  obtain ⟨rb, rk⟩ := r
  rcases h with h | h <;> cases h
  · simp [annotate, resultCmds]
  · cases rb <;> simp [annotate, resultCmds]

/-- Witness for the amended claim C2 at concrete inputs. -/
theorem empty_or_absent_annotation_witness :
    annotate [{ boxes := some [], kps := some [] }] = [countOverlay 0] ∧
    annotate [{ boxes := none, kps := some [] }] = [] ∧
    annotate ([] : List PoseResult) = [] :=
  empty_or_absent_annotation [] { boxes := none, kps := some [] } (Or.inl rfl)

/-- Claim C10: a result object whose boxes field or keypoints field is
absent contributes no drawing at all — no boxes, labels or overlay, even
when person boxes are present — and annotation continues with the
remaining results. -/
theorem absent_fields_skip_result (r : PoseResult) (rs : List PoseResult)
    (h : r.boxes = none ∨ r.kps = none) :
    resultCmds r = [] ∧ resultCount r = 0 ∧ annotate (r :: rs) = annotate rs := by
  obtain ⟨rb, rk⟩ := r
  have hc : resultCmds ⟨rb, rk⟩ = [] := by
    rcases h with h | h <;> cases h
    · simp [resultCmds]
    · cases rb <;> simp [resultCmds]
  have hn : resultCount ⟨rb, rk⟩ = 0 := by
    rcases h with h | h <;> cases h
    · simp [resultCount]
    · cases rb <;> simp [resultCount]
  exact ⟨hc, hn, by simp [annotate, hc]⟩

/-- Witness for claim C10: a result with a valid person box but absent
keypoints draws nothing and is skipped. -/
theorem absent_fields_skip_result_witness :
    resultCmds { boxes := some [personBox], kps := none } = [] ∧
    resultCount { boxes := some [personBox], kps := none } = 0 ∧
    annotate ({ boxes := some [personBox], kps := none } :: [onePersonResult]) =
      annotate [onePersonResult] :=
  absent_fields_skip_result { boxes := some [personBox], kps := none } [onePersonResult]
    (Or.inr rfl)

/-- Claim C8: the annotator is a deterministic pure function — two calls
on equal frames and equal detection results produce, under any
pixel-level rendering of the commands, equal output frames and equal
people counts. -/
theorem annotation_deterministic {F : Type} (render : F → Cmd → F) (f1 f2 : F)
    (rs1 rs2 : List PoseResult) (hf : f1 = f2) (hr : rs1 = rs2) :
    applyCmds render f1 (annotate rs1) = applyCmds render f2 (annotate rs2) ∧
    annotateCounts rs1 = annotateCounts rs2 := by
  subst hf; subst hr; exact ⟨rfl, rfl⟩

/-- Witness for claim C8 at a concrete frame and detection list. -/
theorem annotation_deterministic_witness :
    applyCmds (fun (acc : List Cmd) c => acc ++ [c]) [] (annotate [onePersonResult]) =
      applyCmds (fun (acc : List Cmd) c => acc ++ [c]) [] (annotate [onePersonResult]) ∧
    annotateCounts [onePersonResult] = annotateCounts [onePersonResult] :=
  annotation_deterministic (fun acc c => acc ++ [c]) [] [] [onePersonResult] [onePersonResult]
    rfl rfl

/-- Index pairs of `enumFrom` over an appended list. -/
theorem enumFromAppend {α : Type} (l1 l2 : List α) :
    ∀ n, List.enumFrom n (l1 ++ l2) = List.enumFrom n l1 ++ List.enumFrom (n + l1.length) l2 := by
  induction l1 with
  | nil => simp
  | cons a l1 ih =>
      intro n
      simp only [List.cons_append, List.enumFrom_cons, ih (n + 1), List.length_cons]
      have : n + 1 + l1.length = n + (l1.length + 1) := by omega
      rw [this]

/-- Claim C5: a detection whose class id is not 0 produces no drawing
command at all, does not contribute to the people count, and appending
it to a detection list leaves the box loop's output unchanged. -/
theorem non_person_draws_nothing (ks : List (List (FloatVal × FloatVal))) (i : Nat)
    (b : Box) (bs : List Box) (h : b.cls ≠ 0) :
    detCmds ks i b = [] ∧ detCount b = 0 ∧
    annotateBoxes ks (bs ++ [b]) = annotateBoxes ks bs := by
  have hd : ∀ j, detCmds ks j b = [] := fun j => by simp [detCmds, h]
  refine ⟨hd i, by simp [detCount, h], ?_⟩
  rw [annotateBoxes, annotateBoxes, annotateBoxesAux_eq, annotateBoxesAux_eq]
  refine Prod.ext ?_ ?_
  · simp [enumFromAppend, hd]
  · simp [List.countP_append, List.countP_cons, h]

/-- Witness for claim C5: a cat detection draws nothing. -/
theorem non_person_draws_nothing_witness :
    detCmds [[]] 0 catBox = [] ∧ detCount catBox = 0 ∧
    annotateBoxes [[]] ([personBox] ++ [catBox]) = annotateBoxes [[]] [personBox] :=
  non_person_draws_nothing [[]] 0 catBox [personBox] (by decide)

/-- Claim C4: the commands of a result are the per-detection commands in
input order followed, last, by the people-count overlay; and within a
person detection the order is bounding box and label, then keypoint
markers and names, then skeleton edges. -/
theorem drawing_order (bs : List Box) (ks : List (List (FloatVal × FloatVal))) :
    resultCmds { boxes := some bs, kps := some ks } =
      ((bs.enum.map fun ib => detCmds ks ib.1 ib.2)).flatten ++
        [countOverlay (resultCount { boxes := some bs, kps := some ks })] ∧
    ∀ i b k, b.cls = 0 → ks[i]? = some k →
      detCmds ks i b = (boxLabelCmds b ++ kpCmds k) ++ skelCmds k := by
  constructor
  · show (annotateBoxes ks bs).1 ++ [countOverlay (annotateBoxes ks bs).2] = _
    rw [annotateBoxes_fst]
    rfl
  · intro i b k hb hk
    rw [detCmds, if_neg (by simp [hb]), hk]
    simp

/-- Witness for claim C4 at a concrete result with one person. -/
theorem drawing_order_witness :
    resultCmds { boxes := some [personBox], kps := some [[]] } =
      (([personBox].enum.map fun ib => detCmds [[]] ib.1 ib.2)).flatten ++
        [countOverlay (resultCount { boxes := some [personBox], kps := some [[]] })] ∧
    detCmds [[]] 0 personBox = (boxLabelCmds personBox ++ kpCmds []) ++ skelCmds [] :=
  ⟨(drawing_order [personBox] [[]]).1,
   (drawing_order [personBox] [[]]).2 0 personBox [] rfl rfl⟩

/-- Command counts of one keypoint-loop iteration: one circle, a name
text exactly when the index is within the name table, nothing else. -/
theorem kpEntry_counts (jp : Nat × (FloatVal × FloatVal)) :
    (kpEntry jp).countP isCircleCmd = 1 ∧
    (kpEntry jp).countP isNameTextCmd = (if jp.1 < KEYPOINT_NAMES.length then 1 else 0) ∧
    (kpEntry jp).countP isLineCmd = 0 ∧
    (kpEntry jp).countP isRectCmd = 0 ∧
    (kpEntry jp).countP isLabelTextCmd = 0 := by
  have hns : (nameScale == nameScale) = true := by decide
  have hnl : (nameScale == labelScale) = false := by decide
  rcases h : KEYPOINT_NAMES[jp.1]? with _ | nm
  · have hlen : KEYPOINT_NAMES.length ≤ jp.1 := List.getElem?_eq_none_iff.mp h
    have hn : ¬ jp.1 < KEYPOINT_NAMES.length := by omega
    simp [kpEntry, h, isCircleCmd, isNameTextCmd, isLineCmd, isRectCmd, isLabelTextCmd, hn]
  · obtain ⟨hlt, -⟩ := List.getElem?_eq_some_iff.mp h
    simp [kpEntry, h, isCircleCmd, isNameTextCmd, isLineCmd, isRectCmd, isLabelTextCmd,
      hlt, hns, hnl]

/-- Command counts of the keypoint loop started at index `n`: one circle
per keypoint, one name text per keypoint whose index reaches into the
name table, nothing else. -/
theorem kpBlock_counts (k : List (FloatVal × FloatVal)) :
    ∀ n : Nat,
      ((List.enumFrom n k).map kpEntry).flatten.countP isCircleCmd = k.length ∧
      ((List.enumFrom n k).map kpEntry).flatten.countP isNameTextCmd =
        min k.length (KEYPOINT_NAMES.length - n) ∧
      ((List.enumFrom n k).map kpEntry).flatten.countP isLineCmd = 0 ∧
      ((List.enumFrom n k).map kpEntry).flatten.countP isRectCmd = 0 ∧
      ((List.enumFrom n k).map kpEntry).flatten.countP isLabelTextCmd = 0 := by
  induction k with
  | nil => intro n; simp
  | cons p k ih =>
      intro n
      obtain ⟨e1, e2, e3, e4, e5⟩ := kpEntry_counts (n, p)
      obtain ⟨i1, i2, i3, i4, i5⟩ := ih (n + 1)
      rw [List.enumFrom_cons, List.map_cons, List.flatten_cons]
      have hL : KEYPOINT_NAMES.length = 17 := rfl
      refine ⟨?_, ?_, ?_, ?_, ?_⟩
      · rw [List.countP_append, e1, i1, List.length_cons]
        omega
      · rw [List.countP_append, e2, i2, List.length_cons, hL]
        by_cases hn : n < 17
        · rw [if_pos (show (n, p).1 < 17 from hn), Nat.min_def, Nat.min_def]
          split_ifs <;> omega
        · rw [if_neg (show ¬ (n, p).1 < 17 from hn), Nat.min_def, Nat.min_def]
          split_ifs <;> omega
      · rw [List.countP_append, e3, i3]
      · rw [List.countP_append, e4, i4]
      · rw [List.countP_append, e5, i5]

/-- Command counts of the whole keypoint loop of one detection. -/
theorem kpCmds_counts (k : List (FloatVal × FloatVal)) :
    (kpCmds k).countP isCircleCmd = k.length ∧
    (kpCmds k).countP isNameTextCmd = min k.length KEYPOINT_NAMES.length ∧
    (kpCmds k).countP isLineCmd = 0 ∧
    (kpCmds k).countP isRectCmd = 0 ∧
    (kpCmds k).countP isLabelTextCmd = 0 := by
  have h := kpBlock_counts k 0
  simpa [kpCmds, List.enum_eq_enumFrom] using h

/-- Command counts of box and label: one rectangle and one label text. -/
theorem boxLabel_counts (b : Box) :
    (boxLabelCmds b).countP isCircleCmd = 0 ∧
    (boxLabelCmds b).countP isNameTextCmd = 0 ∧
    (boxLabelCmds b).countP isLineCmd = 0 ∧
    (boxLabelCmds b).countP isRectCmd = 1 ∧
    (boxLabelCmds b).countP isLabelTextCmd = 1 := by
  have h1 : (labelScale == nameScale) = false := by decide
  have h2 : (labelScale == labelScale) = true := by decide
  simp [boxLabelCmds, isCircleCmd, isNameTextCmd, isLineCmd, isRectCmd, isLabelTextCmd, h1, h2]

/-- Command counts of the skeleton loop over any edge list: one line per
edge whose endpoint indices are both within the keypoint array, nothing
else. -/
theorem skelFilter_counts (k : List (FloatVal × FloatVal)) (l : List (Nat × Nat)) :
    ((l.filterMap (skelEntry k)).countP isLineCmd =
      l.countP fun e => decide (e.1 < k.length) && decide (e.2 < k.length)) ∧
    (l.filterMap (skelEntry k)).countP isCircleCmd = 0 ∧
    (l.filterMap (skelEntry k)).countP isNameTextCmd = 0 ∧
    (l.filterMap (skelEntry k)).countP isRectCmd = 0 ∧
    (l.filterMap (skelEntry k)).countP isLabelTextCmd = 0 := by
  induction l with
  | nil => simp
  | cons e l ih =>
      obtain ⟨i1, i2, i3, i4, i5⟩ := ih
      rcases h1 : k[e.1]? with _ | pa
      · have hb1 : ¬ e.1 < k.length := by
          have := List.getElem?_eq_none_iff.mp h1; omega
        simp [List.filterMap_cons, skelEntry, h1, List.countP_cons,
          i1, i2, i3, i4, i5, hb1]
      · obtain ⟨hb1, -⟩ := List.getElem?_eq_some_iff.mp h1
        rcases h2 : k[e.2]? with _ | pb
        · have hb2 : ¬ e.2 < k.length := by
            have := List.getElem?_eq_none_iff.mp h2; omega
          simp [List.filterMap_cons, skelEntry, h1, h2, List.countP_cons,
            i1, i2, i3, i4, i5, hb2]
        · obtain ⟨hb2, -⟩ := List.getElem?_eq_some_iff.mp h2
          simp [List.filterMap_cons, skelEntry, h1, h2, List.countP_cons,
            isLineCmd, isCircleCmd, isNameTextCmd, isRectCmd, isLabelTextCmd,
            i1, i2, i3, i4, i5, hb1, hb2]

/-- Claim C3: for a person detection, annotation is total and skips only
the affected marks — when the detection's index is beyond the keypoint
array only box and label are drawn; otherwise exactly one marker per
keypoint present, names only for indices within the 17-name table,
skeleton lines only for edges with both endpoints in range, and always
exactly one box and one label. -/
theorem keypoint_bound_safety (ks : List (List (FloatVal × FloatVal))) (i : Nat)
    (b : Box) (k : List (FloatVal × FloatVal)) (hcls : b.cls = 0) :
    (ks[i]? = none → detCmds ks i b = boxLabelCmds b) ∧
    (ks[i]? = some k →
      (detCmds ks i b).countP isCircleCmd = k.length ∧
      (detCmds ks i b).countP isNameTextCmd = min k.length KEYPOINT_NAMES.length ∧
      (detCmds ks i b).countP isLineCmd =
        SKELETON.countP (fun e => decide (e.1 < k.length) && decide (e.2 < k.length)) ∧
      (detCmds ks i b).countP isRectCmd = 1 ∧
      (detCmds ks i b).countP isLabelTextCmd = 1) := by
  constructor
  · intro hnone
    rw [detCmds, if_neg (by simp [hcls]), hnone]
    simp
  · intro hsome
    have hd : detCmds ks i b = boxLabelCmds b ++ (kpCmds k ++ skelCmds k) := by
      rw [detCmds, if_neg (by simp [hcls]), hsome]
    obtain ⟨b1, b2, b3, b4, b5⟩ := boxLabel_counts b
    obtain ⟨k1, k2, k3, k4, k5⟩ := kpCmds_counts k
    obtain ⟨s1, s2, s3, s4, s5⟩ := skelFilter_counts k SKELETON
    rw [hd]
    simp only [skelCmds, List.countP_append]
    refine ⟨?_, ?_, ?_, ?_, ?_⟩
    · rw [b1, k1, s2]; omega
    · rw [b2, k2, s3]; omega
    · rw [b3, k3, s1]; omega
    · rw [b4, k4, s4]
    · rw [b5, k5, s5]

/-- Witness for claim C3: one person with a single keypoint (array far
shorter than 17). -/
theorem keypoint_bound_safety_witness :
    (([[kpA]] : List (List (FloatVal × FloatVal)))[0]? = none →
      detCmds [[kpA]] 0 personBox = boxLabelCmds personBox) ∧
    (([[kpA]] : List (List (FloatVal × FloatVal)))[0]? = some [kpA] →
      (detCmds [[kpA]] 0 personBox).countP isCircleCmd = [kpA].length ∧
      (detCmds [[kpA]] 0 personBox).countP isNameTextCmd =
        min [kpA].length KEYPOINT_NAMES.length ∧
      (detCmds [[kpA]] 0 personBox).countP isLineCmd =
        SKELETON.countP (fun e => decide (e.1 < [kpA].length) && decide (e.2 < [kpA].length)) ∧
      (detCmds [[kpA]] 0 personBox).countP isRectCmd = 1 ∧
      (detCmds [[kpA]] 0 personBox).countP isLabelTextCmd = 1) :=
  keypoint_bound_safety [[kpA]] 0 personBox [kpA] rfl

/-- Truncating a float that holds an integer returns that integer. -/
theorem FloatVal.trunc_ofInt (n : Int) : (FloatVal.ofInt n).trunc = n := by
  simp [FloatVal.trunc, FloatVal.ofInt]

/-- Claim C6: a person detection whose box corners are the integers
(n1,n2)-(n3,n4) is drawn as a rectangle with exactly those corners at
line width 2, followed by a label whose text is "Person " plus the
confidence in two-decimal format placed 8 pixels above the top-left
corner; the formatted confidence always has exactly two digits after the
decimal point, and confidence 0.5 renders as "0.50". -/
theorem box_label_exact (ks : List (List (FloatVal × FloatVal))) (i : Nat) (b : Box)
    (n1 n2 n3 n4 : Int) (hc : b.cls = 0)
    (hx : b.xyxy = (FloatVal.ofInt n1, FloatVal.ofInt n2, FloatVal.ofInt n3, FloatVal.ofInt n4)) :
    (∃ rest, detCmds ks i b =
        Cmd.rectangle (n1, n2) (n3, n4) (0, 255, 0) 2 ::
          Cmd.text ("Person " ++ fmt2 b.conf) (n1, n2 - 8) labelScale (0, 255, 0) 2 :: rest) ∧
    (∃ s c1 c2, fmt2 b.conf = s ++ ("." ++ String.mk [c1, c2]) ∧
      (String.mk [c1, c2]).length = 2) ∧
    fmt2 { num := 1, den := 2 } = "0.50" := by
  refine ⟨?_, ?_, by decide⟩
  · refine ⟨(match ks[i]? with | none => [] | some k => kpCmds k ++ skelCmds k), ?_⟩
    rw [detCmds, if_neg (by simp [hc])]
    rw [boxLabelCmds, hx]
    simp [FloatVal.trunc_ofInt]
  · exact ⟨(if b.conf.scale100.roundHalfEven < 0 then "-" else "") ++
        Nat.repr (b.conf.scale100.roundHalfEven.natAbs / 100),
      Nat.digitChar (b.conf.scale100.roundHalfEven.natAbs / 10 % 10),
      Nat.digitChar (b.conf.scale100.roundHalfEven.natAbs % 10), rfl, rfl⟩

/-- Witness for claim C6: confidence 0.5 and corners (10,20)-(110,220). -/
theorem box_label_exact_witness :
    (∃ rest, detCmds [] 0 halfConfBox =
        Cmd.rectangle (10, 20) (110, 220) (0, 255, 0) 2 ::
          Cmd.text ("Person " ++ fmt2 halfConfBox.conf) (10, 20 - 8) labelScale (0, 255, 0) 2 ::
            rest) ∧
    (∃ s c1 c2, fmt2 halfConfBox.conf = s ++ ("." ++ String.mk [c1, c2]) ∧
      (String.mk [c1, c2]).length = 2) ∧
    fmt2 { num := 1, den := 2 } = "0.50" :=
  box_label_exact [] 0 halfConfBox 10 20 110 220 rfl rfl

/-- Membership of marker and name commands in the keypoint loop started
at index `n`: the keypoint at position `j` yields a circle at its
truncated position, and its name text when index `n + j` has a name. -/
theorem kpBlock_mem (k : List (FloatVal × FloatVal)) :
    ∀ (n j : Nat) (p : FloatVal × FloatVal), k[j]? = some p →
      (Cmd.circle (p.1.trunc, p.2.trunc) 4 (0, 0, 255) (-1) ∈
        ((List.enumFrom n k).map kpEntry).flatten) ∧
      ∀ nm, KEYPOINT_NAMES[n + j]? = some nm →
        Cmd.text nm (p.1.trunc + 5, p.2.trunc - 5) nameScale (0, 255, 255) 1 ∈
          ((List.enumFrom n k).map kpEntry).flatten := by
  induction k with
  | nil => intro n j p h; simp at h
  | cons q k ih =>
      intro n j p h
      cases j with
      | zero =>
          have hq : q = p := by simpa using h
          subst hq
          rw [List.enumFrom_cons, List.map_cons, List.flatten_cons]
          constructor
          · apply List.mem_append_left
            simp [kpEntry]
          · intro nm hnm
            apply List.mem_append_left
            simp only [Nat.add_zero] at hnm
            simp [kpEntry, hnm]
      | succ j =>
          have h' : k[j]? = some p := by simpa using h
          obtain ⟨ih1, ih2⟩ := ih (n + 1) j p h'
          rw [List.enumFrom_cons, List.map_cons, List.flatten_cons]
          constructor
          · exact List.mem_append_right _ ih1
          · intro nm hnm
            apply List.mem_append_right
            apply ih2
            rw [show n + 1 + j = n + (j + 1) from by omega]
            exact hnm

/-- Claim C7 (amended): for a person detection, each keypoint's marker
is drawn at its float position truncated toward zero (Python `int()`,
not rounding to nearest), its name text at offset (+5, -5) from that
truncated position, and every drawn skeleton edge runs between the
truncated endpoint positions. -/
theorem keypoint_positions (ks : List (List (FloatVal × FloatVal))) (i : Nat) (b : Box)
    (k : List (FloatVal × FloatVal)) (j : Nat) (p : FloatVal × FloatVal)
    (hc : b.cls = 0) (hk : ks[i]? = some k) (hj : k[j]? = some p) :
    Cmd.circle (p.1.trunc, p.2.trunc) 4 (0, 0, 255) (-1) ∈ detCmds ks i b ∧
    (∀ nm, KEYPOINT_NAMES[j]? = some nm →
      Cmd.text nm (p.1.trunc + 5, p.2.trunc - 5) nameScale (0, 255, 255) 1 ∈ detCmds ks i b) ∧
    (∀ e, e ∈ SKELETON → ∀ pa pb, k[e.1]? = some pa → k[e.2]? = some pb →
      Cmd.line (pa.1.trunc, pa.2.trunc) (pb.1.trunc, pb.2.trunc) (255, 0, 0) 2 ∈
        detCmds ks i b) := by
  have hd : detCmds ks i b = boxLabelCmds b ++ (kpCmds k ++ skelCmds k) := by
    rw [detCmds, if_neg (by simp [hc]), hk]
  obtain ⟨m1, m2⟩ := kpBlock_mem k 0 j p hj
  rw [hd]
  refine ⟨?_, ?_, ?_⟩
  · apply List.mem_append_right
    apply List.mem_append_left
    exact m1
  · intro nm hnm
    apply List.mem_append_right
    apply List.mem_append_left
    exact m2 nm (by simpa using hnm)
  · intro e he pa pb h1 h2
    apply List.mem_append_right
    apply List.mem_append_right
    rw [skelCmds]
    exact List.mem_filterMap.mpr ⟨e, he, by simp [skelEntry, h1, h2]⟩

/-- Claim C7, counterexample: the keypoint at float position (0.6, 0.6)
gets its marker at the truncated position (0, 0), while its rounded
(nearest-integer) position is (1, 1), where no marker is drawn. -/
theorem truncation_not_rounding_cex :
    Cmd.circle (0, 0) 4 (0, 0, 255) (-1) ∈ kpCmds [kpB] ∧
    FloatVal.roundNearest { num := 3, den := 5 } = 1 ∧
    Cmd.circle (1, 1) 4 (0, 0, 255) (-1) ∉ kpCmds [kpB] := by decide

/-- Witness for the amended claim C7 at a concrete detection with one
keypoint at (0.6, 0.6). -/
theorem keypoint_positions_witness :
    Cmd.circle (kpB.1.trunc, kpB.2.trunc) 4 (0, 0, 255) (-1) ∈ detCmds [[kpB]] 0 personBox ∧
    (∀ nm, KEYPOINT_NAMES[0]? = some nm →
      Cmd.text nm (kpB.1.trunc + 5, kpB.2.trunc - 5) nameScale (0, 255, 255) 1 ∈
        detCmds [[kpB]] 0 personBox) ∧
    (∀ e, e ∈ SKELETON → ∀ pa pb,
      ([kpB] : List (FloatVal × FloatVal))[e.1]? = some pa →
      ([kpB] : List (FloatVal × FloatVal))[e.2]? = some pb →
      Cmd.line (pa.1.trunc, pa.2.trunc) (pb.1.trunc, pb.2.trunc) (255, 0, 0) 2 ∈
        detCmds [[kpB]] 0 personBox) :=
  keypoint_positions [[kpB]] 0 personBox [kpB] 0 kpB rfl rfl rfl

/-- The loop body itself never releases the capture device or destroys
the windows: only the `finally` block does. -/
theorem cleanup_not_in_loopEvs (s : List IterIn) :
    Ev.release ∉ loopEvs s ∧ Ev.destroyWin ∉ loopEvs s := by
  induction s with
  | nil => simp [loopEvs]
  | cons x s ih =>
      cases x with
      | readFail => simp [loopEvs]
      | frame r q => cases r <;> cases q <;> simp [loopEvs, ih.1, ih.2]

/-- A failed read, when it occurs, is the last event of the loop body:
the loop breaks immediately, with no further read, inference or display. -/
theorem readFail_last (s : List IterIn) :
    Ev.read false ∈ loopEvs s →
      ∃ pre, loopEvs s = pre ++ [Ev.read false] ∧ Ev.read false ∉ pre := by
  induction s with
  | nil => intro h; simp [loopEvs] at h
  | cons x s ih =>
      cases x with
      | readFail =>
          intro _
          exact ⟨[], rfl, by simp⟩
      | frame r q =>
          intro h
          cases r with
          | true => simp [loopEvs] at h
          | false =>
              cases q with
              | true => simp [loopEvs] at h
              | false =>
                  have h' : Ev.read false ∈ loopEvs s := by simpa [loopEvs] using h
                  obtain ⟨pre, hp, hnp⟩ := ih h'
                  refine ⟨Ev.read true :: Ev.infer :: Ev.disp :: pre, ?_, ?_⟩
                  · simp [loopEvs, hp]
                  · simp [hnp]

/-- `dropWhile` skips an entire prefix on which the predicate holds. -/
theorem dropWhile_append_all {α : Type} (p : α → Bool) (l1 l2 : List α)
    (h : ∀ x ∈ l1, p x = true) : (l1 ++ l2).dropWhile p = l2.dropWhile p := by
  induction l1 with
  | nil => rfl
  | cons a l1 ih =>
      rw [List.cons_append, List.dropWhile_cons, if_pos (h a (by simp))]
      exact ih (fun x hx => h x (by simp [hx]))

/-- Claim C9: on every terminating run after the capture opened — quit
signal, read failure, or exception in the body — the capture device is
released exactly once and the windows are destroyed exactly once, as the
final events before exit; and after a failed read the only remaining
events are that release and window destruction (no further read,
inference or display). -/
theorem cleanup_on_exit (opened : Bool) (s : List IterIn)
    (hop : opened = true) (ht : terminates s = true) :
    (mainEvents opened s).count Ev.release = 1 ∧
    (mainEvents opened s).count Ev.destroyWin = 1 ∧
    (∃ pre, mainEvents opened s = pre ++ [Ev.release, Ev.destroyWin] ∧
      Ev.release ∉ pre ∧ Ev.destroyWin ∉ pre) ∧
    (Ev.read false ∈ mainEvents opened s →
      afterReadFail (mainEvents opened s) = [Ev.release, Ev.destroyWin]) := by
  subst hop
  have hm : mainEvents true s = loopEvs s ++ [Ev.release, Ev.destroyWin] := by
    rw [mainEvents, if_pos rfl, mainRun, if_pos ht]
  obtain ⟨hnr, hnd⟩ := cleanup_not_in_loopEvs s
  rw [hm]
  refine ⟨?_, ?_, ⟨loopEvs s, rfl, hnr, hnd⟩, ?_⟩
  · rw [List.count_append, List.count_eq_zero.mpr hnr]
    decide
  · rw [List.count_append, List.count_eq_zero.mpr hnd]
    decide
  · intro hmem
    have hl : Ev.read false ∈ loopEvs s := by
      rcases List.mem_append.mp hmem with h | h
      · exact h
      · simp at h
    obtain ⟨pre, hp, hnp⟩ := readFail_last s hl
    have hpre : ∀ x ∈ pre, (x != Ev.read false) = true := by
      intro x hx
      have hne : x ≠ Ev.read false := by
        intro hh
        rw [hh] at hx
        exact hnp hx
      simpa using hne
    rw [afterReadFail, hp, List.append_assoc, dropWhile_append_all _ pre _ hpre,
      List.singleton_append, List.dropWhile_cons, if_neg (by decide)]
    rfl

/-- Witness for claim C9: a run with one good frame and then a read
failure. -/
theorem cleanup_on_exit_witness :
    (mainEvents true sampleScript).count Ev.release = 1 ∧
    (mainEvents true sampleScript).count Ev.destroyWin = 1 ∧
    (∃ pre, mainEvents true sampleScript = pre ++ [Ev.release, Ev.destroyWin] ∧
      Ev.release ∉ pre ∧ Ev.destroyWin ∉ pre) ∧
    (Ev.read false ∈ mainEvents true sampleScript →
      afterReadFail (mainEvents true sampleScript) = [Ev.release, Ev.destroyWin]) :=
  cleanup_on_exit true sampleScript rfl (by decide)
